import Mathlib

/-!
Verification of the `AsciiImage` component
(`src/lib/components/AsciiImage.svelte`): a shallow embedding of its
grid-generation step (`generateAscii`), its canvas renderer
(`renderAsciiToCanvas`), its reveal-schedule construction and animation loop
(`startScrambleAnimation` / `animate`), together with theorems about the
spec's claims on that component.

Modelling conventions:
* JavaScript `number` arithmetic is modelled over `ℚ` (the literal `1.8`
  becomes `18/10`, `0.299` becomes `299/1000`, and so on); `Math.floor`
  becomes `Int.floor`.
* The pixel buffer returned by `getImageData` is a flat byte array, modelled
  as `ℕ → Fin 256` (each byte is an unsigned 8-bit value).
* JavaScript string indexing `s[i]` yields `undefined` out of range, so a
  grid cell is an `Option Char` (`none` is `undefined`).
* `Math.random()` draws are modelled by a stream `rand : ℕ → ℕ`; the k-th
  draw of `Math.floor(Math.random() * n)`, an arbitrary integer in
  `[0, n)`, is modelled as `rand k % n`.
-/

namespace AsciiImage

/-- JavaScript string indexing `s[i]`: `some` of the character when `i` is in
range, `none` (i.e. `undefined`) otherwise. -/
def jsCharAt (s : List Char) (i : ℤ) : Option Char :=
  if h : 0 ≤ i ∧ i.toNat < s.length then some (s.get ⟨i.toNat, h.2⟩) else none

/-- Source line 62: `asciiCols = Math.floor(imgWidth / resolution)`. -/
def asciiColsOf (imgWidth : ℕ) (resolution : ℚ) : ℤ :=
  ⌊(imgWidth : ℚ) / resolution⌋

/-- Source line 63: `asciiRows = Math.floor(imgHeight / (resolution * 1.8))`. -/
def asciiRowsOf (imgHeight : ℕ) (resolution : ℚ) : ℤ :=
  ⌊(imgHeight : ℚ) / (resolution * (18 / 10))⌋

/-- Source line 89: `brightness = (0.299 * r + 0.587 * g + 0.114 * b) / 255`. -/
def brightnessOf (r g b : Fin 256) : ℚ :=
  ((299 / 1000) * (r : ℚ) + (587 / 1000) * (g : ℚ) + (114 / 1000) * (b : ℚ)) / 255

/-- Source line 90: `charIndex = Math.floor(brightness * (charSet.length - 1))`. -/
def charIndexOf (charSet : List Char) (brightness : ℚ) : ℤ :=
  ⌊brightness * ((charSet.length : ℤ) - 1)⌋

/-- Source lines 80-92, body of the double loop in `generateAscii`: read the
four bytes of the sampled pixel at flat byte offset `i`, push `" "` when
`a < 128`, else push `charSet[charIndex]`. -/
def cellCharAt (charSet : List Char) (pixels : ℕ → Fin 256) (i : ℕ) : Option Char :=
  let r := pixels i
  let g := pixels (i + 1)
  let b := pixels (i + 2)
  let a := pixels (i + 3)
  if (a : ℕ) < 128 then some ' '
  else jsCharAt charSet (charIndexOf charSet (brightnessOf r g b))

/-- Source lines 77-94: the double loop `for y < asciiRows, for x < asciiCols`
building `asciiChars`, reading byte offset `i = (y * asciiCols + x) * 4`.
A non-positive bound runs the loop zero times, hence `Int.toNat` on the
bounds (inside the loop both bounds are positive, so the `Int.toNat` in the
offset agrees with the source's `asciiCols`). -/
def generateCells (charSet : List Char) (pixels : ℕ → Fin 256)
    (cols rows : ℤ) : List (Option Char) :=
  (List.range rows.toNat).flatMap fun y =>
    (List.range cols.toNat).map fun x =>
      cellCharAt charSet pixels ((y * cols.toNat + x) * 4)

/-- The artifact of the generation step: the grid dimensions (`asciiCols`,
`asciiRows`, source lines 62-63, JavaScript numbers that may be negative) and
the flat character array `asciiChars` (source line 77). -/
structure GlyphGrid where
  cols : ℤ
  rows : ℤ
  cells : List (Option Char)
  deriving Repr, DecidableEq

/-- Source lines 53-98, the `img.onload` body of `generateAscii` (minus the
canvas/global side effects, modelled separately): compute the grid dimensions
and the character array from the image dimensions and the downsampled pixel
buffer. -/
def generateAscii (imgWidth imgHeight : ℕ) (pixels : ℕ → Fin 256)
    (charSet : List Char) (resolution : ℚ) : GlyphGrid :=
  let cols := asciiColsOf imgWidth resolution
  let rows := asciiRowsOf imgHeight resolution
  { cols := cols, rows := rows, cells := generateCells charSet pixels cols rows }

/-- Source line 15: the default `charSet = " .,:;i1tfLCG08@"`. -/
def defaultCharSet : List Char :=
  " .,:;i1tfLCG08@".toList

/-- Source line 16: the default `resolution = 4`. -/
def defaultResolution : ℚ := 4

/-- Source line 17: the default `settleDuration = 2000`. -/
def defaultSettleDuration : ℚ := 2000

example : defaultCharSet.length = 15 := by decide

example : asciiColsOf 800 4 = 200 := by norm_num [asciiColsOf]

example : asciiRowsOf 1000 4 = 138 := by norm_num [asciiRowsOf]

example : asciiColsOf 8 4 = 2 := by norm_num [asciiColsOf]

example : asciiRowsOf 8 4 = 1 := by norm_num [asciiRowsOf]

example : asciiColsOf 8 (-4) = -2 := by norm_num [asciiColsOf]

example : asciiRowsOf 8 (-4) = -2 := by norm_num [asciiRowsOf]

example :
    generateAscii 8 8 (fun _ => 0) defaultCharSet 4 =
      { cols := 2, rows := 1, cells := [some ' ', some ' '] } := by
  norm_num [generateAscii, generateCells, asciiColsOf, asciiRowsOf, cellCharAt,
    List.range_succ]
  decide

example :
    generateAscii 8 8 (fun _ => 255) defaultCharSet 4 =
      { cols := 2, rows := 1, cells := [some '@', some '@'] } := by
  have hb : brightnessOf 255 255 255 = 1 := by
    norm_num [brightnessOf, show ((255 : Fin 256) : ℕ) = 255 from rfl]
  norm_num [generateAscii, generateCells, asciiColsOf, asciiRowsOf, cellCharAt,
    hb, charIndexOf, List.range_succ]
  decide

/-! ### Arithmetic helper lemmas -/

lemma asciiColsOf_natCast (W r : ℕ) (hr : 0 < r) :
    asciiColsOf W (r : ℚ) = ((W / r : ℕ) : ℤ) := by
  have h := Rat.floor_intCast_div_natCast (W : ℤ) r
  rw [show (((W : ℤ) : ℚ)) = (W : ℚ) by push_cast; ring] at h
  rw [asciiColsOf, h]
  norm_cast

lemma asciiRowsOf_natCast (H r : ℕ) (hr : 0 < r) :
    asciiRowsOf H (r : ℚ) = (((10 * H) / (18 * r) : ℕ) : ℤ) := by
  have hr0 : (r : ℚ) ≠ 0 := Nat.cast_ne_zero.mpr hr.ne'
  have harg : (H : ℚ) / ((r : ℚ) * (18 / 10)) =
      (((10 * H : ℕ) : ℤ) : ℚ) / ((18 * r : ℕ) : ℚ) := by
    push_cast
    field_simp
    ring
  rw [asciiRowsOf, harg, Rat.floor_intCast_div_natCast]
  norm_cast

/-! ### Structure of the generated cell list -/

lemma flatMap_range_map {α : Type} (f : ℕ → α) (n m : ℕ) :
    ((List.range n).flatMap fun y => (List.range m).map fun x => f (y * m + x)) =
      (List.range (n * m)).map f := by
  induction n with
  | zero => simp
  | succ n ih =>
    rw [List.range_succ, Nat.succ_mul, List.range_add]
    simp [List.flatMap_append, ih, List.map_map, Function.comp_def]

lemma generateCells_eq (cs : List Char) (px : ℕ → Fin 256) (cols rows : ℤ) :
    generateCells cs px cols rows =
      (List.range (rows.toNat * cols.toNat)).map fun k => cellCharAt cs px (k * 4) :=
  flatMap_range_map (fun k => cellCharAt cs px (k * 4)) rows.toNat cols.toNat

lemma generateCells_length (cs : List Char) (px : ℕ → Fin 256) (cols rows : ℤ) :
    (generateCells cs px cols rows).length = rows.toNat * cols.toNat := by
  rw [generateCells_eq]
  simp

lemma generateCells_getD (cs : List Char) (px : ℕ → Fin 256) (cols rows : ℤ)
    (k : ℕ) (hk : k < rows.toNat * cols.toNat) :
    (generateCells cs px cols rows).getD k none = cellCharAt cs px (k * 4) := by
  rw [generateCells_eq, List.getD_eq_getElem?_getD]
  simp [List.getElem?_map, List.getElem?_range, hk]

lemma mul_add_lt_mul {x y m n : ℕ} (hx : x < m) (hy : y < n) :
    y * m + x < n * m :=
  calc y * m + x < y * m + m := by omega
  _ = (y + 1) * m := by ring
  _ ≤ n * m := Nat.mul_le_mul_right m hy

/-! ### Brightness and character-index bounds -/

lemma brightnessOf_nonneg (r g b : Fin 256) : 0 ≤ brightnessOf r g b := by
  unfold brightnessOf
  positivity

lemma fin256_cast_le (r : Fin 256) : ((r : ℕ) : ℚ) ≤ 255 := by
  exact_mod_cast Nat.lt_succ_iff.mp r.isLt

lemma brightnessOf_le_one (r g b : Fin 256) : brightnessOf r g b ≤ 1 := by
  unfold brightnessOf
  rw [div_le_one (by norm_num)]
  have hr := fin256_cast_le r
  have hg := fin256_cast_le g
  have hb := fin256_cast_le b
  linarith

lemma charIndexOf_nonneg (cs : List Char) (hcs : cs ≠ []) {br : ℚ}
    (h0 : 0 ≤ br) : 0 ≤ charIndexOf cs br := by
  unfold charIndexOf
  apply Int.floor_nonneg.mpr
  have hlen : (1 : ℚ) ≤ (cs.length : ℚ) := by
    exact_mod_cast List.length_pos.mpr hcs
  have hnn : (0 : ℚ) ≤ ((cs.length : ℤ) : ℚ) - 1 := by push_cast; linarith
  exact mul_nonneg h0 hnn

lemma charIndexOf_le (cs : List Char) (hcs : cs ≠ []) {br : ℚ}
    (h0 : 0 ≤ br) (h1 : br ≤ 1) :
    charIndexOf cs br ≤ (cs.length : ℤ) - 1 := by
  unfold charIndexOf
  have hlen : (1 : ℚ) ≤ (cs.length : ℚ) := by
    exact_mod_cast List.length_pos.mpr hcs
  have hnn : (0 : ℚ) ≤ ((cs.length : ℤ) : ℚ) - 1 := by push_cast; linarith
  have hcast : ((cs.length : ℤ) : ℚ) - 1 = (((cs.length : ℤ) - 1 : ℤ) : ℚ) := by
    push_cast; ring
  have hle : br * (((cs.length : ℤ) : ℚ) - 1) ≤ (((cs.length : ℤ) - 1 : ℤ) : ℚ) := by
    rw [← hcast]
    nlinarith
  calc ⌊br * (((cs.length : ℤ) : ℚ) - 1)⌋ ≤ ⌊(((cs.length : ℤ) - 1 : ℤ) : ℚ)⌋ :=
    Int.floor_mono hle
  _ = (cs.length : ℤ) - 1 := Int.floor_intCast _

lemma charIndexOf_toNat_lt (cs : List Char) (hcs : cs ≠ []) {br : ℚ}
    (h0 : 0 ≤ br) (h1 : br ≤ 1) :
    (charIndexOf cs br).toNat < cs.length := by
  have h2 := charIndexOf_le cs hcs h0 h1
  have h3 := charIndexOf_nonneg cs hcs h0
  have hlen : (1 : ℤ) ≤ cs.length := by
    exact_mod_cast List.length_pos.mpr hcs
  omega

lemma jsCharAt_eq_some (s : List Char) (i : ℤ) (h0 : 0 ≤ i)
    (h : i.toNat < s.length) :
    jsCharAt s i = some (s.getD i.toNat ' ') := by
  unfold jsCharAt
  rw [dif_pos ⟨h0, h⟩]
  congr 1
  simp [List.getD_eq_getElem?_getD, List.getElem?_eq_getElem h]

lemma cellCharAt_eq (cs : List Char) (hcs : cs ≠ []) (px : ℕ → Fin 256) (i : ℕ) :
    cellCharAt cs px i =
      if (px (i + 3) : ℕ) < 128 then some ' '
      else some (cs.getD (charIndexOf cs
        (brightnessOf (px i) (px (i + 1)) (px (i + 2)))).toNat ' ') := by
  unfold cellCharAt
  dsimp only
  split
  · rfl
  · exact jsCharAt_eq_some _ _
      (charIndexOf_nonneg cs hcs (brightnessOf_nonneg _ _ _))
      (charIndexOf_toNat_lt cs hcs (brightnessOf_nonneg _ _ _) (brightnessOf_le_one _ _ _))

lemma cellCharAt_isSome (cs : List Char) (hcs : cs ≠ []) (px : ℕ → Fin 256)
    (i : ℕ) : (cellCharAt cs px i).isSome := by
  rw [cellCharAt_eq cs hcs]
  split <;> rfl

/-! ### Claim theorems C1, C4, C9, C10 -/

/-- C1: for every loaded image of width `W` and height `H`, every positive
integer resolution `r`, and every non-empty `charSet`, the grid built by
`generateAscii` has `cols = ⌊W/r⌋` columns (stated as the natural-number
division `W / r`) and `rows = ⌊H/(r·1.8)⌋` rows (stated as the equal
natural-number division `(10·H)/(18·r)`), it has `rows · cols` cells laid out
row-major, and the cell at `(x, y)` is the space character when the sampled
pixel's alpha byte is `< 128`, and otherwise is
`charSet[⌊brightness · (charSet.length - 1)⌋]` for the pixel's normalized
perceived brightness `(0.299·R + 0.587·G + 0.114·B)/255`. -/
theorem grid_formula_and_cells (W H r : ℕ) (hr : 0 < r) (cs : List Char)
    (hcs : cs ≠ []) (px : ℕ → Fin 256) :
    (generateAscii W H px cs (r : ℚ)).cols = ((W / r : ℕ) : ℤ) ∧
    (generateAscii W H px cs (r : ℚ)).rows = (((10 * H) / (18 * r) : ℕ) : ℤ) ∧
    (generateAscii W H px cs (r : ℚ)).cells.length =
      ((10 * H) / (18 * r)) * (W / r) ∧
    ∀ x y : ℕ, x < W / r → y < (10 * H) / (18 * r) →
      (generateAscii W H px cs (r : ℚ)).cells.getD (y * (W / r) + x) none =
        if (px ((y * (W / r) + x) * 4 + 3) : ℕ) < 128 then some ' '
        else some (cs.getD (charIndexOf cs (brightnessOf
          (px ((y * (W / r) + x) * 4))
          (px ((y * (W / r) + x) * 4 + 1))
          (px ((y * (W / r) + x) * 4 + 2)))).toNat ' ') := by
  have hcols := asciiColsOf_natCast W r hr
  have hrows := asciiRowsOf_natCast H r hr
  have hcolsN : (asciiColsOf W (r : ℚ)).toNat = W / r := by
    rw [hcols]; exact Int.toNat_natCast _
  have hrowsN : (asciiRowsOf H (r : ℚ)).toNat = (10 * H) / (18 * r) := by
    rw [hrows]; exact Int.toNat_natCast _
  refine ⟨hcols, hrows, ?_, ?_⟩
  · show (generateCells cs px (asciiColsOf W (r : ℚ)) (asciiRowsOf H (r : ℚ))).length = _
    rw [generateCells_length, hcolsN, hrowsN]
  · intro x y hx hy
    show (generateCells cs px (asciiColsOf W (r : ℚ)) (asciiRowsOf H (r : ℚ))).getD _ none = _
    rw [generateCells_getD cs px _ _ (y * (W / r) + x)
        (by rw [hcolsN, hrowsN]; exact mul_add_lt_mul hx hy)]
    exact cellCharAt_eq cs hcs px _

/-- Witness for `grid_formula_and_cells` at the concrete input
`W = H = 8`, `r = 4`, the default character set, and an all-zero pixel
buffer. -/
theorem grid_formula_and_cells_witness :
    (generateAscii 8 8 (fun _ => 0) defaultCharSet ((4 : ℕ) : ℚ)).cols =
      ((8 / 4 : ℕ) : ℤ) ∧
    (generateAscii 8 8 (fun _ => 0) defaultCharSet ((4 : ℕ) : ℚ)).rows =
      (((10 * 8) / (18 * 4) : ℕ) : ℤ) :=
  ⟨(grid_formula_and_cells 8 8 4 (by decide) defaultCharSet (by decide)
      (fun _ => 0)).1,
   (grid_formula_and_cells 8 8 4 (by decide) defaultCharSet (by decide)
      (fun _ => 0)).2.1⟩

/-- C4 counterexample: the claim says the default `charSet` is a 16-character
ramp, but the source default `" .,:;i1tfLCG08@"` (line 15) has 15
characters. -/
theorem default_charSet_not_sixteen :
    ¬ (defaultResolution = 4 ∧ defaultSettleDuration = 2000 ∧
       defaultCharSet.length = 16 ∧ defaultCharSet.headD 'x' = ' ' ∧
       defaultCharSet.getLastD 'x' = '@') :=
  fun h => absurd h.2.2.1 (by decide)

/-- C4 (amended): the defaults are `resolution = 4`,
`settleDuration = 2000` ms, and a fixed 15-character `charSet` ramp running
from the space character to `'@'`. -/
theorem default_config_values :
    defaultResolution = 4 ∧ defaultSettleDuration = 2000 ∧
    defaultCharSet.length = 15 ∧ defaultCharSet.headD 'x' = ' ' ∧
    defaultCharSet.getLastD 'x' = '@' :=
  ⟨rfl, rfl, by decide, by decide, by decide⟩

/-- The component's single source of randomness (`Math.random`) is modelled
as a stream `rand : ℕ → ℕ` threaded through each operation. The source body
of `generateAscii` (lines 49-102) contains no `Math.random` call, so the
embedding receives the stream and never consults it. -/
def generateAsciiWithRand (rand : ℕ → ℕ) (imgWidth imgHeight : ℕ)
    (pixels : ℕ → Fin 256) (charSet : List Char) (resolution : ℚ) : GlyphGrid :=
  generateAscii imgWidth imgHeight pixels charSet resolution

/-- C9: grid construction is deterministic — for a fixed
`(pixel buffer, resolution, charSet)` triple, two runs of the generation step
under arbitrary (and arbitrarily different) random streams produce identical
grids: the same `cols` and `rows` and the same character at every cell. -/
theorem generateAscii_deterministic (rand₁ rand₂ : ℕ → ℕ)
    (W H : ℕ) (px : ℕ → Fin 256) (cs : List Char) (res : ℚ) :
    generateAsciiWithRand rand₁ W H px cs res =
      generateAsciiWithRand rand₂ W H px cs res := rfl

/-- C10: for every non-empty `charSet` and every sampled pixel, the computed
character index `⌊brightness · (charSet.length - 1)⌋` lies within
`[0, charSet.length - 1]`, so the `charSet` lookup is in bounds; consequently
every cell produced by grid generation is a defined character (never the
`undefined` that an out-of-range JavaScript string index would give). -/
theorem charIndex_in_bounds (cs : List Char) (hcs : cs ≠ [])
    (r g b : Fin 256) :
    0 ≤ charIndexOf cs (brightnessOf r g b) ∧
    (charIndexOf cs (brightnessOf r g b)).toNat < cs.length ∧
    (jsCharAt cs (charIndexOf cs (brightnessOf r g b))).isSome ∧
    ∀ (W H : ℕ) (px : ℕ → Fin 256) (res : ℚ),
      ∀ c ∈ (generateAscii W H px cs res).cells, c.isSome := by
  have h0 := brightnessOf_nonneg r g b
  have h1 := brightnessOf_le_one r g b
  have hnn := charIndexOf_nonneg cs hcs h0
  have hlt := charIndexOf_toNat_lt cs hcs h0 h1
  refine ⟨hnn, hlt, ?_, ?_⟩
  · rw [jsCharAt_eq_some _ _ hnn hlt]; rfl
  · intro W H px res c hc
    have : c ∈ (List.range ((asciiRowsOf H res).toNat * (asciiColsOf W res).toNat)).map
        fun k => cellCharAt cs px (k * 4) := by
      rw [← generateCells_eq]; exact hc
    obtain ⟨k, _, rfl⟩ := List.mem_map.mp this
    exact cellCharAt_isSome cs hcs px _

/-- Witness for `charIndex_in_bounds` at the default character set and a
fully saturated white pixel. -/
theorem charIndex_in_bounds_witness :
    0 ≤ charIndexOf defaultCharSet (brightnessOf 255 255 255) ∧
    (charIndexOf defaultCharSet (brightnessOf 255 255 255)).toNat <
      defaultCharSet.length :=
  ⟨(charIndex_in_bounds defaultCharSet (by decide) 255 255 255).1,
   (charIndex_in_bounds defaultCharSet (by decide) 255 255 255).2.1⟩

/-! ### Reveal schedule (source lines 150-163) -/

/-- Source lines 151-156: collect, in ascending order, the indices `i` with
`asciiChars[i] !== " "`. -/
def indicesToSettle (asciiChars : List (Option Char)) : List ℕ :=
  (List.range asciiChars.length).filter fun i => asciiChars.getD i none != some ' '

/-- Source lines 159-162: the destructuring swap
`[a[i], a[j]] = [a[j], a[i]]` (a no-op when an index is out of range, which
never happens at the call site). -/
def swapList (l : List ℕ) (i j : ℕ) : List ℕ :=
  match l[i]?, l[j]? with
  | some a, some b => (l.set i b).set j a
  | _, _ => l

/-- Source lines 157-163: the Fisher-Yates loop
`for (i = length - 1; i > 0; i--)`. The second argument is the loop variable
`i`; `j = Math.floor(Math.random() * (i + 1))` is an arbitrary integer in
`[0, i]`, modelled as `rand i % (i + 1)`. -/
def fisherYates (rand : ℕ → ℕ) : List ℕ → ℕ → List ℕ
  | l, 0 => l
  | l, i + 1 => fisherYates rand (swapList l (i + 1) (rand (i + 1) % (i + 2))) i

/-- Source lines 150-163: the shuffled `indicesToSettle` built at the start of
`startScrambleAnimation`. -/
def revealSchedule (asciiChars : List (Option Char)) (rand : ℕ → ℕ) : List ℕ :=
  fisherYates rand (indicesToSettle asciiChars) ((indicesToSettle asciiChars).length - 1)

lemma cons_set_perm {α : Type} (x b : α) (xs : List α) (k : ℕ)
    (h : xs[k]? = some b) : (b :: xs.set k x).Perm (x :: xs) := by
  induction xs generalizing k with
  | nil => simp at h
  | cons y t ih =>
    cases k with
    | zero =>
      simp only [List.getElem?_cons_zero, Option.some.injEq] at h
      subst h
      exact List.Perm.swap x y t
    | succ k =>
      simp only [List.getElem?_cons_succ] at h
      show (b :: y :: t.set k x).Perm (x :: y :: t)
      have h1 : (b :: y :: t.set k x).Perm (y :: b :: t.set k x) :=
        List.Perm.swap y b _
      have h2 : (y :: b :: t.set k x).Perm (y :: (x :: t)) := (ih k h).cons y
      have h3 : (y :: x :: t).Perm (x :: y :: t) := List.Perm.swap x y t
      exact (h1.trans h2).trans h3

lemma set_set_perm {α : Type} : ∀ (l : List α) (i j : ℕ) (a b : α),
    l[i]? = some a → l[j]? = some b → ((l.set i b).set j a).Perm l := by
  intro l
  induction l with
  | nil => intro i j a b h1 _; simp at h1
  | cons y t ih =>
    intro i j a b h1 h2
    cases i with
    | zero =>
      simp only [List.getElem?_cons_zero, Option.some.injEq] at h1
      subst h1
      cases j with
      | zero =>
        simp only [List.getElem?_cons_zero, Option.some.injEq] at h2
        subst h2
        simp
      | succ k =>
        simp only [List.getElem?_cons_succ] at h2
        show (b :: t.set k y).Perm (y :: t)
        exact cons_set_perm y b t k h2
    | succ m =>
      simp only [List.getElem?_cons_succ] at h1
      cases j with
      | zero =>
        simp only [List.getElem?_cons_zero, Option.some.injEq] at h2
        subst h2
        show (a :: t.set m y).Perm (y :: t)
        exact cons_set_perm y a t m h1
      | succ k =>
        simp only [List.getElem?_cons_succ] at h2
        show (y :: (t.set m b).set k a).Perm (y :: t)
        exact (ih m k a b h1 h2).cons y

lemma swapList_perm (l : List ℕ) (i j : ℕ) : (swapList l i j).Perm l := by
  unfold swapList
  split
  · next a b h1 h2 => exact set_set_perm l i j a b h1 h2
  · exact List.Perm.refl l

lemma fisherYates_perm (rand : ℕ → ℕ) : ∀ (i : ℕ) (l : List ℕ),
    (fisherYates rand l i).Perm l := by
  intro i
  induction i with
  | zero => intro l; exact List.Perm.refl l
  | succ i ih =>
    intro l
    show (fisherYates rand (swapList l (i + 1) (rand (i + 1) % (i + 2))) i).Perm l
    exact (ih _).trans (swapList_perm _ _ _)

lemma indicesToSettle_nodup (ascii : List (Option Char)) :
    (indicesToSettle ascii).Nodup :=
  (List.nodup_range _).filter _

lemma mem_indicesToSettle (ascii : List (Option Char)) (i : ℕ) :
    i ∈ indicesToSettle ascii ↔ i < ascii.length ∧ ascii.getD i none ≠ some ' ' := by
  unfold indicesToSettle
  simp [List.mem_filter, List.mem_range]

lemma revealSchedule_perm_indices (ascii : List (Option Char)) (rand : ℕ → ℕ) :
    (revealSchedule ascii rand).Perm (indicesToSettle ascii) :=
  fisherYates_perm rand _ _

/-- C5: for every glyph grid, the reveal schedule generated at the start of an
animation run is a permutation of exactly the non-whitespace cell indices:
it contains each non-whitespace cell index exactly once (count 1) and
contains no whitespace cell index (count 0). -/
theorem revealSchedule_complete_and_unique (ascii : List (Option Char))
    (rand : ℕ → ℕ) :
    (revealSchedule ascii rand).Perm (indicesToSettle ascii) ∧
    (∀ i, i < ascii.length → ascii.getD i none ≠ some ' ' →
      (revealSchedule ascii rand).count i = 1) ∧
    (∀ i, ascii.getD i none = some ' ' →
      (revealSchedule ascii rand).count i = 0) := by
  have hperm := revealSchedule_perm_indices ascii rand
  refine ⟨hperm, ?_, ?_⟩
  · intro i hi hne
    rw [hperm.count_eq]
    exact List.count_eq_one_of_mem (indicesToSettle_nodup ascii)
      ((mem_indicesToSettle ascii i).mpr ⟨hi, hne⟩)
  · intro i hsp
    rw [hperm.count_eq]
    rw [List.count_eq_zero]
    intro hmem
    exact ((mem_indicesToSettle ascii i).mp hmem).2 hsp

/-- Witness for `revealSchedule_complete_and_unique` on the grid
`[some 'a', some ' ']` with a constant random stream: index 0 (non-space)
appears exactly once, index 1 (space) not at all. -/
theorem revealSchedule_complete_and_unique_witness :
    (revealSchedule [some 'a', some ' '] (fun _ => 0)).count 0 = 1 ∧
    (revealSchedule [some 'a', some ' '] (fun _ => 0)).count 1 = 0 :=
  ⟨(revealSchedule_complete_and_unique [some 'a', some ' '] (fun _ => 0)).2.1 0
      (by decide) (by decide),
   (revealSchedule_complete_and_unique [some 'a', some ' '] (fun _ => 0)).2.2 1
      (by decide)⟩

/-! ### Animation loop (source lines 40, 138-140, 165-199) -/

/-- The whitespace class of the regex `/\s/` on the characters that can occur
here (the scramble alphabet is ASCII). -/
def jsWhitespaceChar (c : Char) : Bool :=
  c == ' ' || c == '\t' || c == '\n' || c == '\r'

/-- Source line 40:
`scrambleChars = charSet.replace(/\s/g, "") + "!@#$%^&*<>[]\x7b\x7d"`. -/
def scrambleCharsOf (charSet : List Char) : List Char :=
  charSet.filter (fun c => !jsWhitespaceChar c) ++ "!@#$%^&*<>[]\x7b\x7d".toList

/-- Source lines 138-140: `scrambleChars[Math.floor(Math.random() * length)]`,
an arbitrary in-range index modelled as `rand k % length` for the k-th draw
(`none` when the list is empty, as JavaScript indexing would give
`undefined`). -/
def getRandomChar (scramble : List Char) (rand : ℕ → ℕ) (k : ℕ) : Option Char :=
  scramble[rand k % scramble.length]?

/-- Source lines 171-176: the `while` loop advancing settlement. Each
iteration checks `settledIndices.size < shouldBeSettled` and
`settledIndices.size < indicesToSettle.length` and inserts
`indicesToSettle[settledIndices.size]`. In every state the loop actually
reaches, `settledIndices` holds pairwise-distinct schedule entries, so each
insertion grows the set and the loop runs at most `sched.length` iterations;
the explicit `fuel` argument (always called with `sched.length`) therefore
reproduces the source loop exactly on those states. -/
def settleLoop (sched : List ℕ) : ℕ → Finset ℕ → ℤ → Finset ℕ
  | 0, settled, _ => settled
  | fuel + 1, settled, shouldBe =>
    if (settled.card : ℤ) < shouldBe ∧ settled.card < sched.length then
      settleLoop sched fuel (insert (sched.getD settled.card 0) settled) shouldBe
    else settled

/-- Source lines 178-188: build the current frame's characters — a space cell
stays a space, a settled cell shows its final character, an unsettled
non-space cell shows a fresh random scramble character. -/
def buildFrame (ascii : List (Option Char)) (settled : Finset ℕ)
    (scramble : List Char) (rand : ℕ → ℕ) : List (Option Char) :=
  (List.range ascii.length).map fun i =>
    if ascii.getD i none = some ' ' then some ' '
    else if i ∈ settled then ascii.getD i none
    else getRandomChar scramble rand i

/-- What one call of `animate` (source lines 165-197) produces: the updated
`settledIndices`, the frame characters built on this tick (`currentChars`),
the characters of the image actually displayed after the tick
(`displayedAsciiUrl` — the final grid when `progress >= 1`, line 195), and
whether the callback re-scheduled itself (line 193). -/
structure TickResult where
  settledIndices : Finset ℕ
  currentChars : List (Option Char)
  displayedChars : List (Option Char)
  reschedules : Bool
  deriving DecidableEq

/-- Source lines 165-197: one tick of `animate` at clock time `currentTime`
for a run started at `startTime` with schedule `sched` and settled-set
`settled`. -/
def animate (settleDuration : ℚ) (ascii : List (Option Char))
    (scramble : List Char) (sched : List ℕ) (settled : Finset ℕ)
    (startTime currentTime : ℚ) (rand : ℕ → ℕ) (isHovering : Bool) :
    TickResult :=
  let elapsed := currentTime - startTime
  let progress := min (elapsed / settleDuration) 1
  let shouldBeSettled : ℤ := ⌊progress * (sched.length : ℚ)⌋
  let settled2 := settleLoop sched sched.length settled shouldBeSettled
  let currentChars := buildFrame ascii settled2 scramble rand
  { settledIndices := settled2
    currentChars := currentChars
    displayedChars := if 1 ≤ progress then ascii else currentChars
    reschedules := decide (progress < 1) && isHovering }

lemma settleLoop_subset (sched : List ℕ) :
    ∀ (fuel : ℕ) (settled : Finset ℕ) (shouldBe : ℤ),
      settled ⊆ settleLoop sched fuel settled shouldBe := by
  intro fuel
  induction fuel with
  | zero => intro settled shouldBe; exact Finset.Subset.refl settled
  | succ fuel ih =>
    intro settled shouldBe
    show settled ⊆ (if (settled.card : ℤ) < shouldBe ∧ settled.card < sched.length
      then settleLoop sched fuel (insert (sched.getD settled.card 0) settled) shouldBe
      else settled)
    split
    · exact (Finset.subset_insert _ settled).trans (ih _ _)
    · exact Finset.Subset.refl settled

/-- C6: within one animation run, the settled-set is monotonically
non-decreasing across consecutive ticks — the settled-set entering any tick
is a subset of the settled-set the tick produces (tick N+1 receives tick N's
set, so the set at tick N is a subset of the set at tick N+1, and no cell is
ever un-settled before cancellation). -/
theorem settled_monotone (settleDuration : ℚ) (ascii : List (Option Char))
    (scramble : List Char) (sched : List ℕ) (settled : Finset ℕ)
    (startTime currentTime : ℚ) (rand : ℕ → ℕ) (isHovering : Bool) :
    settled ⊆ (animate settleDuration ascii scramble sched settled
      startTime currentTime rand isHovering).settledIndices :=
  settleLoop_subset sched sched.length settled _

lemma toFinset_card_of_take {sched : List ℕ} (hnd : sched.Nodup) {k : ℕ}
    (hk : k ≤ sched.length) : ((sched.take k).toFinset).card = k := by
  rw [List.toFinset_card_of_nodup (hnd.sublist (List.take_sublist k sched))]
  simp [hk]

lemma take_toFinset_insert {sched : List ℕ} {k : ℕ} (hk : k < sched.length) :
    (sched.take (k + 1)).toFinset =
      insert (sched.getD k 0) ((sched.take k).toFinset) := by
  rw [← List.take_concat_get' sched k hk]
  rw [List.toFinset_append]
  rw [List.getD_eq_getElem sched 0 hk]
  simp [Finset.insert_eq, Finset.union_comm]

lemma settleLoop_complete {sched : List ℕ} (hnd : sched.Nodup) :
    ∀ (fuel k : ℕ), k ≤ sched.length → sched.length ≤ k + fuel →
      settleLoop sched fuel ((sched.take k).toFinset) (sched.length : ℤ) =
        sched.toFinset := by
  intro fuel
  induction fuel with
  | zero =>
    intro k hk hfuel
    have : k = sched.length := le_antisymm hk (by omega)
    subst this
    show (sched.take sched.length).toFinset = sched.toFinset
    rw [List.take_length]
  | succ fuel ih =>
    intro k hk hfuel
    show (if (((sched.take k).toFinset).card : ℤ) < (sched.length : ℤ) ∧
        ((sched.take k).toFinset).card < sched.length
      then settleLoop sched fuel
        (insert (sched.getD ((sched.take k).toFinset).card 0)
          ((sched.take k).toFinset)) (sched.length : ℤ)
      else (sched.take k).toFinset) = sched.toFinset
    rw [toFinset_card_of_take hnd hk]
    rcases Nat.lt_or_ge k sched.length with hlt | hge
    · rw [if_pos ⟨by exact_mod_cast hlt, hlt⟩]
      rw [← take_toFinset_insert hlt]
      exact ih (k + 1) hlt (by omega)
    · have : k = sched.length := le_antisymm hk hge
      subst this
      rw [if_neg (by omega)]
      rw [List.take_length]

lemma buildFrame_all_settled (ascii : List (Option Char)) (settled : Finset ℕ)
    (scramble : List Char) (rand : ℕ → ℕ)
    (hset : ∀ i, i < ascii.length → ascii.getD i none ≠ some ' ' → i ∈ settled) :
    buildFrame ascii settled scramble rand = ascii := by
  apply List.ext_getElem
  · simp [buildFrame]
  · intro i h1 h2
    simp only [buildFrame, List.getElem_map, List.getElem_range,
      List.length_map, List.length_range] at h1 ⊢
    rw [List.getD_eq_getElem ascii none h2]
    by_cases hsp : ascii[i] = some ' '
    · simp [hsp]
    · rw [if_neg hsp]
      rw [if_pos (hset i h2 (by rw [List.getD_eq_getElem ascii none h2]; exact hsp))]

/-- C7: on any tick of a run whose elapsed time makes `progress` reach 1
(`settleDuration ≤ currentTime - startTime`, with a positive
`settleDuration`), the schedule is fully consumed (the settled-set becomes
the set of all schedule entries), the frame built on that tick equals the
final glyph grid at every cell (no residual scrambled cells), the displayed
image is the final grid, and the per-frame callback does not re-schedule
itself — so no later tick of that run occurs. The hypotheses describe any
state reachable within one run: the schedule is the run's reveal schedule (a
permutation of the non-space indices, hence duplicate-free) and the
settled-set holds exactly the first `k` schedule entries (`k = 0` at the
start of the run, and each tick preserves this shape). -/
theorem completion_convergence (settleDuration : ℚ)
    (hdur : 0 < settleDuration) (ascii : List (Option Char))
    (scramble : List Char) (rand : ℕ → ℕ) (sched : List ℕ)
    (hs : sched.Perm (indicesToSettle ascii)) (k : ℕ) (hk : k ≤ sched.length)
    (startTime currentTime : ℚ)
    (ht : settleDuration ≤ currentTime - startTime) (isHovering : Bool) :
    (animate settleDuration ascii scramble sched ((sched.take k).toFinset)
      startTime currentTime rand isHovering).settledIndices = sched.toFinset ∧
    (animate settleDuration ascii scramble sched ((sched.take k).toFinset)
      startTime currentTime rand isHovering).currentChars = ascii ∧
    (animate settleDuration ascii scramble sched ((sched.take k).toFinset)
      startTime currentTime rand isHovering).displayedChars = ascii ∧
    (animate settleDuration ascii scramble sched ((sched.take k).toFinset)
      startTime currentTime rand isHovering).reschedules = false := by
  have hnd : sched.Nodup := hs.nodup_iff.mpr (indicesToSettle_nodup ascii)
  have hprog : min ((currentTime - startTime) / settleDuration) 1 = 1 :=
    min_eq_right ((one_le_div hdur).mpr ht)
  have hshould : (⌊min ((currentTime - startTime) / settleDuration) 1 *
      (sched.length : ℚ)⌋ : ℤ) = (sched.length : ℤ) := by
    rw [hprog, one_mul, Int.floor_natCast]
  have hsettled : settleLoop sched sched.length ((sched.take k).toFinset)
      ⌊min ((currentTime - startTime) / settleDuration) 1 * (sched.length : ℚ)⌋ =
      sched.toFinset := by
    rw [hshould]
    exact settleLoop_complete hnd sched.length k hk (by omega)
  have hframe : buildFrame ascii sched.toFinset scramble rand = ascii := by
    apply buildFrame_all_settled
    intro i hi hne
    rw [List.mem_toFinset, hs.mem_iff]
    exact (mem_indicesToSettle ascii i).mpr ⟨hi, hne⟩
  refine ⟨?_, ?_, ?_, ?_⟩
  · show settleLoop sched sched.length _ _ = sched.toFinset
    exact hsettled
  · show buildFrame ascii (settleLoop sched sched.length _ _) scramble rand = ascii
    rw [hsettled, hframe]
  · show (if 1 ≤ min ((currentTime - startTime) / settleDuration) 1 then ascii
      else buildFrame ascii (settleLoop sched sched.length _ _) scramble rand) = ascii
    rw [hprog, if_pos le_rfl]
  · show (decide (min ((currentTime - startTime) / settleDuration) 1 < 1) &&
      isHovering) = false
    rw [hprog]
    simp

/-- Witness for `completion_convergence`: a one-cell grid `[some 'a']` with
schedule `[0]`, run start at time 0, tick at time 2000 with the default
2000 ms settle duration. -/
theorem completion_convergence_witness :
    (animate 2000 [some 'a'] [] [0] ((([0] : List ℕ).take 0).toFinset)
      0 2000 (fun _ => 0) true).reschedules = false :=
  (completion_convergence 2000 (by norm_num) [some 'a'] [] (fun _ => 0) [0]
    (by decide) 0 (by decide) 0 2000 (by norm_num) true).2.2.2

/-- C8: a fully transparent 8×8 image (every byte of the pixel buffer 0, so
alpha = 0 everywhere) at the default resolution 4 produces a grid consisting
entirely of space characters (a 2×1 grid of spaces); on such an all-space
grid the reveal schedule is empty for every random stream, and every tick of
an animation run — whatever its settled-set, timing, scramble alphabet,
randomness, or hover state — builds and displays exactly the all-space grid,
so the animation is complete from the first frame on: zero visible character
changes across all rendered frames. -/
theorem transparent_image_scenario :
    (generateAscii 8 8 (fun _ => 0) defaultCharSet defaultResolution).cells =
      [some ' ', some ' '] ∧
    (∀ rand : ℕ → ℕ, revealSchedule [some ' ', some ' '] rand = []) ∧
    ∀ (settleDuration : ℚ) (scramble : List Char) (settled : Finset ℕ)
      (startTime currentTime : ℚ) (rand : ℕ → ℕ) (isHovering : Bool),
      (animate settleDuration [some ' ', some ' '] scramble [] settled
        startTime currentTime rand isHovering).currentChars =
          [some ' ', some ' '] ∧
      (animate settleDuration [some ' ', some ' '] scramble [] settled
        startTime currentTime rand isHovering).displayedChars =
          [some ' ', some ' '] := by
  refine ⟨?_, ?_, ?_⟩
  · show generateCells defaultCharSet (fun _ => 0)
      (asciiColsOf 8 defaultResolution) (asciiRowsOf 8 defaultResolution) = _
    have hc : asciiColsOf 8 defaultResolution = 2 := by
      norm_num [asciiColsOf, defaultResolution]
    have hr : asciiRowsOf 8 defaultResolution = 1 := by
      norm_num [asciiRowsOf, defaultResolution]
    rw [hc, hr]
    decide
  · intro rand
    rfl
  · intro settleDuration scramble settled startTime currentTime rand isHovering
    have hframe : ∀ s : Finset ℕ,
        buildFrame [some ' ', some ' '] s scramble rand = [some ' ', some ' '] := by
      intro s
      unfold buildFrame
      rfl
    constructor
    · show buildFrame [some ' ', some ' '] _ scramble rand = _
      exact hframe _
    · show (if (1 : ℚ) ≤ min ((currentTime - startTime) / settleDuration) 1
        then [some ' ', some ' ']
        else buildFrame [some ' ', some ' '] _ scramble rand) = _
      split
      · rfl
      · exact hframe _

/-! ### Configuration handling (C2) -/

/-- The spec's configuration-time error (§7 error taxonomy). No such error
exists anywhere in the source; the type exists only so that the spec's
"reject with `InvalidConfigurationError`" claim can be stated against the
source's actual behavior. -/
inductive ConfigError where
  | invalidConfiguration
  deriving DecidableEq, Repr

/-- The generation step as the component actually runs it: the source
(lines 11-25 props, lines 49-102 `generateAscii`) contains no validation of
`resolution`, `settleDuration` or `charSet` and no throw path, so every
configuration reaches grid construction and the runner always returns
`Except.ok`. -/
def runGenerateAscii (imgWidth imgHeight : ℕ) (px : ℕ → Fin 256)
    (cs : List Char) (res : ℚ) : Except ConfigError GlyphGrid :=
  Except.ok (generateAscii imgWidth imgHeight px cs res)

/-- The spec's validity predicate, following the spec's words (§7): positive
`resolution` and `settleDuration` and non-empty `charSet`. -/
def specValidConfig (cs : List Char) (res dur : ℚ) : Prop :=
  0 < res ∧ 0 < dur ∧ cs ≠ []

/-- C2 counterexample: the claim says a configuration with non-positive
resolution is rejected at configuration time with an
`InvalidConfigurationError`; but at the concrete invalid configuration
`resolution = -4` (on an 8×8 image with the default charSet) the component
raises no error and silently produces a grid with negative dimensions and an
empty cell list. -/
theorem invalid_config_accepted :
    ¬ specValidConfig defaultCharSet (-4) defaultSettleDuration ∧
    runGenerateAscii 8 8 (fun _ => 0) defaultCharSet (-4) =
      Except.ok { cols := -2, rows := -2, cells := [] } ∧
    (runGenerateAscii 8 8 (fun _ => 0) defaultCharSet (-4)).isOk = true := by
  refine ⟨fun h => absurd h.1 (by norm_num), ?_, rfl⟩
  have hc : asciiColsOf 8 (-4) = -2 := by norm_num [asciiColsOf]
  have hr : asciiRowsOf 8 (-4) = -2 := by norm_num [asciiRowsOf]
  simp only [runGenerateAscii, generateAscii, hc, hr]
  rfl

/-- C2 (amended): the component performs no configuration-time validation at
all — a non-positive `resolution`, non-positive `settleDuration` or empty
`charSet` is accepted without any error (the source has no check and no
throw path), and instead of rejecting, a negative resolution silently yields
a grid whose dimension fields are negative and whose cell list is empty. -/
theorem no_config_validation (imgWidth imgHeight : ℕ) (px : ℕ → Fin 256)
    (cs : List Char) (res : ℚ) (hres : res < 0) :
    (runGenerateAscii imgWidth imgHeight px cs res).isOk = true ∧
    (generateAscii imgWidth imgHeight px cs res).cells = [] := by
  refine ⟨rfl, ?_⟩
  show generateCells cs px (asciiColsOf imgWidth res) (asciiRowsOf imgHeight res) = []
  have hrows : asciiRowsOf imgHeight res ≤ 0 := by
    unfold asciiRowsOf
    have h0 : (imgHeight : ℚ) / (res * (18 / 10)) ≤ 0 :=
      div_nonpos_of_nonneg_of_nonpos (by positivity) (by nlinarith)
    have h1 := Int.floor_mono h0
    simpa using h1
  unfold generateCells
  rw [Int.toNat_of_nonpos hrows]
  rfl

/-- Witness for `no_config_validation` at the concrete invalid resolution
`-4`. -/
theorem no_config_validation_witness :
    (generateAscii 8 8 (fun _ => 0) defaultCharSet (-4)).cells = [] :=
  (no_config_validation 8 8 (fun _ => 0) defaultCharSet (-4) (by norm_num)).2

/-! ### Cross-instance state (C3) -/

/-- The window-level globals `__asciiImgWidth` / `__asciiImgHeight`
(source lines 71-72, 106-107): one shared cell per page, `none` when never
written (`undefined`). -/
structure WindowGlobals where
  asciiImgWidth : Option ℕ
  asciiImgHeight : Option ℕ
  deriving DecidableEq

/-- JavaScript `v || d`: `undefined` and `0` are both falsy. -/
def jsOrDefault (v : Option ℕ) (d : ℕ) : ℕ :=
  match v with
  | none => d
  | some n => if n = 0 then d else n

/-- The mutable state owned by one component instance (source lines 34-38):
`asciiChars`, `asciiCols`, `asciiRows` (grid cache) and `settledIndices`
(animation state). -/
structure InstanceState where
  asciiChars : List (Option Char)
  asciiCols : ℤ
  asciiRows : ℤ
  settledIndices : Finset ℕ
  deriving DecidableEq

/-- The initial values of the per-instance fields (source lines 35-38). -/
def initInstanceState : InstanceState :=
  { asciiChars := [], asciiCols := 0, asciiRows := 0, settledIndices := ∅ }

/-- Source lines 53-98: the `onload` body as a state transformer. It updates
the instance's own grid fields and writes the source image dimensions to the
shared window globals (lines 71-72). -/
def onloadStep (st : InstanceState) (win : WindowGlobals)
    (imgWidth imgHeight : ℕ) (px : ℕ → Fin 256) (cs : List Char) (res : ℚ) :
    InstanceState × WindowGlobals :=
  let g := generateAscii imgWidth imgHeight px cs res
  ({ st with asciiCols := g.cols, asciiRows := g.rows, asciiChars := g.cells },
   { asciiImgWidth := some imgWidth, asciiImgHeight := some imgHeight })

/-- The observable output of `renderAsciiToCanvas` (source lines 104-136):
the canvas dimensions, cell metrics, font size, and the `fillText` drawing
commands `(character, x * charWidth, y * charHeight)`. -/
structure RenderOutput where
  width : ℕ
  height : ℕ
  charWidth : ℚ
  charHeight : ℚ
  fontSize : ℚ
  commands : List (Option Char × ℚ × ℚ)
  deriving DecidableEq

/-- Source lines 104-136: `renderAsciiToCanvas`. The canvas dimensions are
read from the shared window globals (`__asciiImgWidth || 800`,
`__asciiImgHeight || 1000`, lines 106-107), not from the instance. -/
def renderAsciiToCanvas (st : InstanceState) (win : WindowGlobals)
    (chars : List (Option Char)) : RenderOutput :=
  let width := jsOrDefault win.asciiImgWidth 800
  let height := jsOrDefault win.asciiImgHeight 1000
  let charWidth : ℚ := (width : ℚ) / (st.asciiCols : ℚ)
  let charHeight : ℚ := (height : ℚ) / (st.asciiRows : ℚ)
  let fontSize : ℚ := min charWidth charHeight * (12 / 10)
  { width := width, height := height, charWidth := charWidth,
    charHeight := charHeight, fontSize := fontSize,
    commands := (List.range st.asciiRows.toNat).flatMap fun y =>
      (List.range st.asciiCols.toNat).map fun x =>
        (chars.getD (y * st.asciiCols.toNat + x) none,
          (x : ℚ) * charWidth, (y : ℚ) * charHeight) }

/-- C3 counterexample: the image dimensions are shared mutable window state,
so interleaving two instances changes one instance's rendered output.
Instance A loads an 8×8 image; rendering A's grid uses canvas width 8. A
second instance B then loads a 16×4 image, overwriting the globals; the same
render call on A's unchanged state now uses canvas width 16. -/
theorem shared_window_state_interleaving :
    (renderAsciiToCanvas
      (onloadStep initInstanceState ⟨none, none⟩ 8 8 (fun _ => 0) defaultCharSet 4).1
      (onloadStep initInstanceState ⟨none, none⟩ 8 8 (fun _ => 0) defaultCharSet 4).2
      []).width = 8 ∧
    (renderAsciiToCanvas
      (onloadStep initInstanceState ⟨none, none⟩ 8 8 (fun _ => 0) defaultCharSet 4).1
      (onloadStep initInstanceState
        (onloadStep initInstanceState ⟨none, none⟩ 8 8 (fun _ => 0) defaultCharSet 4).2
        16 4 (fun _ => 0) defaultCharSet 4).2
      []).width = 16 ∧
    (8 : ℕ) ≠ 16 := by
  refine ⟨rfl, rfl, by decide⟩

/-- C3 (amended): the grid cache (`asciiChars`, `asciiCols`, `asciiRows`) and
the animation state (`settledIndices`) are per-instance, and one instance's
image load leaves its own animation state untouched; but the cached source
image dimensions are NOT per-instance — they live in window-level globals
shared by all instances, so after any instance's load, every instance's
render reads that load's dimensions (for any non-zero dimensions, which
`||` would not replace by the 800×1000 defaults). Interleaving another
instance's load between an instance's load and its render therefore changes
the latter's rendered output, as `shared_window_state_interleaving` shows
concretely. -/
theorem window_dimensions_shared (stA stB : InstanceState) (win : WindowGlobals)
    (imgWidth imgHeight : ℕ) (hW : imgWidth ≠ 0) (hH : imgHeight ≠ 0)
    (px : ℕ → Fin 256) (cs : List Char) (res : ℚ)
    (chars : List (Option Char)) :
    (renderAsciiToCanvas stA (onloadStep stB win imgWidth imgHeight px cs res).2
      chars).width = imgWidth ∧
    (renderAsciiToCanvas stA (onloadStep stB win imgWidth imgHeight px cs res).2
      chars).height = imgHeight ∧
    (onloadStep stB win imgWidth imgHeight px cs res).1.settledIndices =
      stB.settledIndices := by
  refine ⟨?_, ?_, rfl⟩
  · show jsOrDefault (some imgWidth) 800 = imgWidth
    simp [jsOrDefault, hW]
  · show jsOrDefault (some imgHeight) 1000 = imgHeight
    simp [jsOrDefault, hH]

/-- Witness for `window_dimensions_shared`: after any instance loads a 16×4
image, a render by an unrelated instance uses width 16. -/
theorem window_dimensions_shared_witness :
    (renderAsciiToCanvas initInstanceState
      (onloadStep initInstanceState ⟨none, none⟩ 16 4 (fun _ => 0)
        defaultCharSet 4).2 []).width = 16 :=
  (window_dimensions_shared initInstanceState initInstanceState ⟨none, none⟩
    16 4 (by decide) (by decide) (fun _ => 0) defaultCharSet 4 []).1

end AsciiImage
